import Mathlib

/-!
Shallow embedding of the core of `my-menu-app`:
  * `src/lib/decision.ts` — the decision engine (`getCandidates`, `pickOne`,
    `decideNext`);
  * `src/lib/menus.ts` (two variants, one using Node's SHA-256, one a
    murmur-inspired 64-bit mixer) — the catalog parser
    (`stableId`, `parseCSVLine`, `parseMenusFromCSVText`).

Genres and carbs are runtime strings in the source (validated against the
closed arrays `MAIN_GENRES` / `CARBS`), so they are `String` here as well.
JavaScript 32-bit integer operations are modelled as `Nat` arithmetic
`% 2^32` on the unsigned bit patterns.
-/

namespace MenuApp

/-- The closed genre vocabulary (`MAIN_GENRES` in menus.ts). -/
def MAIN_GENRES : List String := ["和食", "洋食", "中華", "その他", "デザート"]

/-- The closed carb vocabulary (`CARBS` in menus.ts). -/
def CARBS : List String := ["米", "麺", "どちらでもない"]

/-- A validated catalog record (`interface Menu`). -/
structure Menu where
  id : String
  name : String
  mainGenre : String
  carb : String
  deriving Repr, DecidableEq

/-- A filter (`interface Filter` in decision.ts).  The TypeScript `mode`
field is typed as a four-string union, but an out-of-union string can
reach the function at runtime (the source keeps a `default:` throw for
exactly that), so `mode` is a plain `String` here.  The optional payload
fields are `Option String`. -/
structure Filter where
  mode : String
  mainGenre : Option String := none
  carb : Option String := none
  deriving Repr, DecidableEq

/-- `getCandidates(menus, filter)` from decision.ts.  The `default:` branch
of the `switch` throws, so the result is `Except`.  JavaScript `if (!target)`
is falsy both for `undefined` and for the empty string, hence the
`.getD "" = ""` tests. -/
def getCandidates (menus : List Menu) (filter : Filter) :
    Except String (List Menu) :=
  if filter.mode = "random" then
    .ok (menus.filter fun m => m.mainGenre != "デザート")
  else if filter.mode = "carb" then
    let target := filter.carb.getD ""
    if target = "" then .ok []
    else
      .ok (menus.filter fun m =>
        m.mainGenre != "デザート" && (m.carb == target || m.carb == "どちらでもない"))
  else if filter.mode = "genre" then
    let genre := filter.mainGenre.getD ""
    if genre = "" then .ok []
    else .ok (menus.filter fun m => m.mainGenre == genre)
  else if filter.mode = "dessert" then
    .ok (menus.filter fun m => m.mainGenre == "デザート")
  else
    .error ("Unknown mode: " ++ filter.mode)

/-- `pickOne(candidates)` from decision.ts.  The call
`Math.floor(Math.random() * candidates.length)` is modelled by passing the
drawn index `idx` explicitly; `Math.random () < 1` guarantees
`idx < candidates.length` on non-empty input, which callers of the lemmas
below carry as a hypothesis. -/
def pickOne (candidates : List Menu) (idx : Nat) : Option Menu :=
  if candidates.length = 0 then none
  else candidates[idx]?

/-- The record returned by `decideNext`. -/
structure DecideResult where
  result : Option Menu
  candidatesCount : Nat
  deriving Repr, DecidableEq

/-- `decideNext(menus, filter, prevId?)` from decision.ts.  `prevId` is
accepted but intentionally unused by the source; the random draw is the
explicit `idx` as in `pickOne`. -/
def decideNext (menus : List Menu) (filter : Filter)
    (_prevId : Option String) (idx : Nat) : Except String DecideResult :=
  match getCandidates menus filter with
  | .error e => .error e
  | .ok candidates =>
      .ok { result := pickOne candidates idx
            candidatesCount := candidates.length }

/-! ### The catalog parser (`src/lib/menus.ts`, static-export variant) -/

/-- JavaScript `Math.imul` on unsigned 32-bit patterns. -/
def imul32 (a b : Nat) : Nat := a * b % 2 ^ 32

/-- The UTF-16 code units of one character (what `charCodeAt` walks). -/
def utf16CodeUnits (c : Char) : List Nat :=
  let n := c.toNat
  if n < 65536 then [n]
  else [55296 + (n - 65536) / 1024, 56320 + (n - 65536) % 1024]

/-- All UTF-16 code units of a string, in order. -/
def jsCharCodes (s : String) : List Nat :=
  (s.data.map utf16CodeUnits).flatten

/-- One iteration of the `stableId` mixing loop:
`h1 = imul(h1 ^ ch, 2654435761); h2 = imul(h2 ^ ch, 1597334677)`. -/
def murmurRound (h : Nat × Nat) (ch : Nat) : Nat × Nat :=
  (imul32 (h.1 ^^^ ch) 2654435761, imul32 (h.2 ^^^ ch) 1597334677)

/-- The murmur-inspired 53-bit mix of `stableId`: the character loop from
seeds `0xdeadbeef` / `0x41c6ce57`, the four finalization lines, and
`4294967296 * (2097151 & h2) + (h1 >>> 0)`.  Signed JavaScript values are
represented by their unsigned 32-bit patterns. -/
def murmurMix (codes : List Nat) : Nat :=
  let hs := codes.foldl murmurRound (0xdeadbeef, 0x41c6ce57)
  let h1a := imul32 (hs.1 ^^^ (hs.1 >>> 16)) 2246822507
  let h1b := h1a ^^^ imul32 (hs.2 ^^^ (hs.2 >>> 13)) 3266489909
  let h2a := imul32 (hs.2 ^^^ (hs.2 >>> 16)) 2246822507
  let h2b := h2a ^^^ imul32 (h1b ^^^ (h1b >>> 13)) 3266489909
  4294967296 * (h2b &&& 2097151) + h1b

/-- The digit alphabet of JavaScript `Number.prototype.toString(36)`:
`0`-`9` then `a`-`z`. -/
def jsDigitChar (n : Nat) : Char :=
  if n < 10 then Char.ofNat (48 + n) else Char.ofNat (87 + n)

/-- Base-36 digit accumulation, most significant digit first, with a fuel
bound on the digit count (64 digits cover every JavaScript number). -/
def toBase36Aux : Nat → Nat → List Char → List Char
  | 0, _, acc => acc
  | fuel + 1, n, acc =>
    if n < 36 then jsDigitChar n :: acc
    else toBase36Aux fuel (n / 36) (jsDigitChar (n % 36) :: acc)

/-- JavaScript `toString(36)` on a non-negative integer. -/
def toBase36 (n : Nat) : List Char := toBase36Aux 64 n []

/-- JavaScript `padStart(11, "0")` on a list of characters. -/
def padStart11 (s : List Char) : List Char :=
  List.replicate (11 - s.length) (Char.ofNat 48) ++ s

/-- `stableId(name, mainGenre, carb)` of the static-export menus.ts: the
murmur-inspired 64-bit mixing hash of `name\tmainGenre\tcarb`, rendered in
base 36 and left-padded with zeros to width 11. -/
def stableId (name mainGenre carb : String) : String :=
  let str := name ++ "\t" ++ mainGenre ++ "\t" ++ carb
  String.mk (padStart11 (toBase36 (murmurMix (jsCharCodes str))))

/-! ### The Node-crypto variant of `stableId`
(`src/src/lib/menus.ts`: `createHash("sha256").update(...).digest("hex").slice(0, 12)`).
SHA-256 is embedded directly: 32-bit words are `Nat` values below `2 ^ 32`. -/

namespace NodeCrypto

/-- UTF-8 encoding of one character (what Node hashes for a string). -/
def utf8Bytes (c : Char) : List Nat :=
  let n := c.toNat
  if n < 128 then [n]
  else if n < 2048 then [192 + n / 64, 128 + n % 64]
  else if n < 65536 then
    [224 + n / 4096, 128 + n / 64 % 64, 128 + n % 64]
  else
    [240 + n / 262144, 128 + n / 4096 % 64, 128 + n / 64 % 64, 128 + n % 64]

/-- UTF-8 bytes of a string. -/
def stringUTF8 (s : String) : List Nat :=
  (s.data.map utf8Bytes).flatten

/-- Right rotation of a 32-bit word. -/
def rotr32 (x n : Nat) : Nat :=
  (x >>> n) ||| (x <<< (32 - n) % 2 ^ 32)

/-- The SHA-256 working state: eight 32-bit words. -/
structure Hash where
  a : Nat
  b : Nat
  c : Nat
  d : Nat
  e : Nat
  f : Nat
  g : Nat
  h : Nat
  deriving Repr, DecidableEq

/-- The SHA-256 initial state (the eight FIPS 180-4 initial words, here
as decimal `Nat` literals). -/
def H0 : Hash :=
  ⟨1779033703, 3144134277, 1013904242, 2773480762,
   1359893119, 2600822924, 528734635, 1541459225⟩

/-- The 64 SHA-256 round constants of FIPS 180-4, as decimal `Nat`
literals. -/
def K : List Nat :=
  [1116352408, 1899447441, 3049323471, 3921009573, 961987163,
   1508970993, 2453635748, 2870763221, 3624381080, 310598401,
   607225278, 1426881987, 1925078388, 2162078206, 2614888103,
   3248222580, 3835390401, 4022224774, 264347078, 604807628,
   770255983, 1249150122, 1555081692, 1996064986, 2554220882,
   2821834349, 2952996808, 3210313671, 3336571891, 3584528711,
   113926993, 338241895, 666307205, 773529912, 1294757372,
   1396182291, 1695183700, 1986661051, 2177026350, 2456956037,
   2730485921, 2820302411, 3259730800, 3345764771, 3516065817,
   3600352804, 4094571909, 275423344, 430227734, 506948616,
   659060556, 883997877, 958139571, 1322822218, 1537002063,
   1747873779, 1955562222, 2024104815, 2227730452, 2361852424,
   2428436474, 2756734187, 3204031479, 3329325298]

/-- σ₀ of the message schedule. -/
def smallSigma0 (x : Nat) : Nat := rotr32 x 7 ^^^ rotr32 x 18 ^^^ (x >>> 3)

/-- σ₁ of the message schedule. -/
def smallSigma1 (x : Nat) : Nat := rotr32 x 17 ^^^ rotr32 x 19 ^^^ (x >>> 10)

/-- Σ₀ of the compression function. -/
def bigSigma0 (x : Nat) : Nat := rotr32 x 2 ^^^ rotr32 x 13 ^^^ rotr32 x 22

/-- Σ₁ of the compression function. -/
def bigSigma1 (x : Nat) : Nat := rotr32 x 6 ^^^ rotr32 x 11 ^^^ rotr32 x 25

/-- SHA-256 `Ch`: `(e AND f) XOR (NOT e AND g)` on 32-bit words. -/
def ch (e f g : Nat) : Nat := (e &&& f) ^^^ ((e ^^^ 0xffffffff) &&& g)

/-- SHA-256 `Maj`. -/
def maj (a b c : Nat) : Nat := (a &&& b) ^^^ (a &&& c) ^^^ (b &&& c)

/-- One schedule-extension step: append `W[n-16] + σ₀(W[n-15]) + W[n-7] +
σ₁(W[n-2])`. -/
def scheduleStep (ws : List Nat) : List Nat :=
  let n := ws.length
  ws ++ [(ws.getD (n - 16) 0 + smallSigma0 (ws.getD (n - 15) 0) +
    ws.getD (n - 7) 0 + smallSigma1 (ws.getD (n - 2) 0)) % 2 ^ 32]

/-- Extend a 16-word block to the 64-word schedule. -/
def buildSchedule (block : List Nat) : List Nat :=
  (List.range 48).foldl (fun ws _ => scheduleStep ws) block

/-- One of the 64 compression rounds, consuming `(K[i], W[i])`. -/
def compressRound (st : Hash) (kw : Nat × Nat) : Hash :=
  let t1 := (st.h + bigSigma1 st.e + ch st.e st.f st.g + kw.1 + kw.2) % 2 ^ 32
  let t2 := (bigSigma0 st.a + maj st.a st.b st.c) % 2 ^ 32
  { a := (t1 + t2) % 2 ^ 32, b := st.a, c := st.b, d := st.c,
    e := (st.d + t1) % 2 ^ 32, f := st.e, g := st.f, h := st.g }

/-- Compress one 16-word block into the running state. -/
def compressBlock (st : Hash) (block : List Nat) : Hash :=
  let fin := (K.zip (buildSchedule block)).foldl compressRound st
  { a := (st.a + fin.a) % 2 ^ 32, b := (st.b + fin.b) % 2 ^ 32,
    c := (st.c + fin.c) % 2 ^ 32, d := (st.d + fin.d) % 2 ^ 32,
    e := (st.e + fin.e) % 2 ^ 32, f := (st.f + fin.f) % 2 ^ 32,
    g := (st.g + fin.g) % 2 ^ 32, h := (st.h + fin.h) % 2 ^ 32 }

/-- The big-endian 8-byte rendering of the bit length. -/
def beBytes8 (n : Nat) : List Nat :=
  [n >>> 56 % 256, n >>> 48 % 256, n >>> 40 % 256, n >>> 32 % 256,
   n >>> 24 % 256, n >>> 16 % 256, n >>> 8 % 256, n % 256]

/-- SHA-256 padding: `0x80`, zeros to 56 mod 64, then the bit length. -/
def padMessage (msg : List Nat) : List Nat :=
  msg ++ [128] ++ List.replicate ((64 - (msg.length + 9) % 64) % 64) 0 ++
    beBytes8 (8 * msg.length)

/-- Big-endian grouping of bytes into 32-bit words. -/
def bytesToWords : List Nat → List Nat
  | b0 :: b1 :: b2 :: b3 :: rest =>
      (b0 * 16777216 + b1 * 65536 + b2 * 256 + b3) :: bytesToWords rest
  | _ => []

/-- Split a word list into 16-word blocks (fuelled for kernel reduction). -/
def toBlocksAux : Nat → List Nat → List (List Nat)
  | 0, _ => []
  | _, [] => []
  | fuel + 1, ws => ws.take 16 :: toBlocksAux fuel (ws.drop 16)

/-- Split a word list into 16-word blocks. -/
def toBlocks (ws : List Nat) : List (List Nat) := toBlocksAux ws.length ws

/-- SHA-256 of a byte list, as the final eight-word state. -/
def sha256Words (msg : List Nat) : Hash :=
  (toBlocks (bytesToWords (padMessage msg))).foldl compressBlock H0

/-- One lowercase hex digit. -/
def hexDigit (n : Nat) : Char :=
  if n < 10 then Char.ofNat (48 + n) else Char.ofNat (87 + n)

/-- The fixed-width 8-hex-digit rendering of a 32-bit word. -/
def toHex8 (w : Nat) : List Char :=
  [hexDigit (w / 268435456 % 16), hexDigit (w / 16777216 % 16),
   hexDigit (w / 1048576 % 16), hexDigit (w / 65536 % 16),
   hexDigit (w / 4096 % 16), hexDigit (w / 256 % 16),
   hexDigit (w / 16 % 16), hexDigit (w % 16)]

/-- `digest("hex")`: the 64-character lowercase hex digest. -/
def sha256Hex (msg : List Nat) : List Char :=
  toHex8 (sha256Words msg).a ++ toHex8 (sha256Words msg).b ++
  toHex8 (sha256Words msg).c ++ toHex8 (sha256Words msg).d ++
  toHex8 (sha256Words msg).e ++ toHex8 (sha256Words msg).f ++
  toHex8 (sha256Words msg).g ++ toHex8 (sha256Words msg).h

/-- `stableId(name, mainGenre, carb)` of the Node-crypto menus.ts:
SHA-256 of `name\tmainGenre\tcarb`, hex, truncated to 12 characters. -/
def stableId (name mainGenre carb : String) : String :=
  let str := name ++ "\t" ++ mainGenre ++ "\t" ++ carb
  String.mk ((sha256Hex (stringUTF8 str)).take 12)

end NodeCrypto

/-- The control state of the `parseCSVLine` loop: at the start of a field,
inside an unquoted field, or inside a quoted field (with the field text
accumulated so far). -/
inductive CSVPhase
  | atFieldStart
  | inBare (acc : String)
  | inQuoted (acc : String)

/-- The `while (i <= len)` loop of `parseCSVLine`.  At the start of a field,
end of input pushes one final empty field; the source comments this branch
with "trailing comma → empty field", but the loop also re-enters here when
a quoted field closes exactly at the end of the line.  An unquoted field
(the `indexOf(",", i)` branch) runs to the next comma, or to the end of
input, in which case the loop breaks with no extra empty field.  Inside a
quoted field, `""` is an escaped literal quote, a lone `"` closes the
field and one directly following comma is skipped, and at end of input the
unterminated field is pushed before the loop re-enters at end of input. -/
def csvRun : CSVPhase → List Char → List String
  | .atFieldStart, [] => [""]
  | .atFieldStart, '"' :: rest => csvRun (.inQuoted "") rest
  | .atFieldStart, ',' :: rest => "" :: csvRun .atFieldStart rest
  | .atFieldStart, c :: rest => csvRun (.inBare (String.mk [c])) rest
  | .inBare acc, [] => [acc]
  | .inBare acc, ',' :: rest => acc :: csvRun .atFieldStart rest
  | .inBare acc, c :: rest => csvRun (.inBare (acc.push c)) rest
  | .inQuoted acc, [] => [acc, ""]
  | .inQuoted acc, '"' :: '"' :: rest => csvRun (.inQuoted (acc.push '"')) rest
  | .inQuoted acc, '"' :: ',' :: rest => acc :: csvRun .atFieldStart rest
  | .inQuoted acc, '"' :: rest => acc :: csvRun .atFieldStart rest
  | .inQuoted acc, c :: rest => csvRun (.inQuoted (acc.push c)) rest

/-- `parseCSVLine(line)` from menus.ts. -/
def parseCSVLine (line : String) : List String :=
  csvRun .atFieldStart line.data

/-- `raw.split(/\r?\n/)`: split on `\n` or on the pair `\r\n` (a lone
`\r` stays inside its line). -/
def splitLinesAux : List Char → List Char → List String
  | [], acc => [String.mk acc.reverse]
  | '\r' :: '\n' :: rest, acc => String.mk acc.reverse :: splitLinesAux rest []
  | '\n' :: rest, acc => String.mk acc.reverse :: splitLinesAux rest []
  | c :: rest, acc => splitLinesAux rest (c :: acc)

/-- `raw.split(/\r?\n/)` on a whole string. -/
def splitLines (raw : String) : List String :=
  splitLinesAux raw.data []

/-- JavaScript `Array.prototype.join(sep)`. -/
def joinSep (sep : String) : List String → String
  | [] => ""
  | [x] => x
  | x :: y :: xs => x ++ sep ++ joinSep sep (y :: xs)

/-- JavaScript `String.prototype.trim()`: strip whitespace from both ends
(the catalog content only ever meets ASCII whitespace, which
`Char.isWhitespace` covers). -/
def jsTrim (s : String) : String :=
  String.mk
    (((s.data.dropWhile Char.isWhitespace).reverse.dropWhile
      Char.isWhitespace).reverse)

/-- `isMainGenre(v)`: membership in the closed genre vocabulary. -/
def isMainGenre (v : String) : Bool := MAIN_GENRES.contains v

/-- `isCarb(v)`: membership in the closed carb vocabulary. -/
def isCarb (v : String) : Bool := CARBS.contains v

/-- JavaScript template rendering of a possibly-`undefined` field (an
absent column prints as `undefined` inside the error message). -/
def showField : Option String → String
  | none => "undefined"
  | some s => s

/-- The `mainGenre` row-error message. -/
def genreErr (mg? : Option String) : String :=
  "mainGenre=\"" ++ showField mg? ++ "\" is not one of [" ++
    joinSep "," MAIN_GENRES ++ "]"

/-- The `carb` row-error message. -/
def carbErr (c? : Option String) : String :=
  "carb=\"" ++ showField c? ++ "\" is not one of [" ++
    joinSep "," CARBS ++ "]"

/-- The trimmed fields of one line, as the row loop and the header check
see them (`parseCSVLine(line).map(c => c.trim())`). -/
def trimmedCols (line : String) : List String :=
  (parseCSVLine line).map (fun c => jsTrim c)

/-- The row-error list of one data row: the `mainGenre` check then the
`carb` check, each validating the missing-column case as the empty string
(`?? ""`). -/
def rowErrorsOf (line : String) : List String :=
  (if isMainGenre (((trimmedCols line)[1]?).getD "") then []
   else [genreErr ((trimmedCols line)[1]?)]) ++
  (if isCarb (((trimmedCols line)[2]?).getD "") then []
   else [carbErr ((trimmedCols line)[2]?)])

/-- The record built from a valid data row (on the success path all three
columns are present, so the `?? ""` defaults are the column values). -/
def recordOf (line : String) : Menu :=
  { id := stableId (((trimmedCols line)[0]?).getD "")
      (((trimmedCols line)[1]?).getD "") (((trimmedCols line)[2]?).getD "")
    name := ((trimmedCols line)[0]?).getD ""
    mainGenre := ((trimmedCols line)[1]?).getD ""
    carb := ((trimmedCols line)[2]?).getD "" }

/-- `Row ${rowNum}: ${rowErrors.join("; ")}`. -/
def rowErrMsg (rowNum : Nat) (line : String) : String :=
  "Row " ++ toString rowNum ++ ": " ++ joinSep "; " (rowErrorsOf line)

/-- One iteration of the data-row loop of `parseMenusFromCSVText`, at
1-based physical line number `rowNum`: `none` when the row is skipped
(blank line, or empty trimmed name), `some (.error msg)` when the row
contributes a row-level error, `some (.ok record)` when it yields a
record. -/
def processRow (rowNum : Nat) (line : String) : Option (Except String Menu) :=
  if jsTrim line = "" then none
  else if ((trimmedCols line)[0]?).getD "" = "" then none
  else if (rowErrorsOf line).isEmpty then some (.ok (recordOf line))
  else some (.error (rowErrMsg rowNum line))

/-- `expectedHeader` from menus.ts. -/
def expectedHeader : List String := ["name", "mainGenre", "carb"]

/-- The header check: at least three fields and the first three are
`name`, `mainGenre`, `carb` in that order (extra fields tolerated). -/
def headerMatches (header : List String) : Bool :=
  match header with
  | n :: g :: c :: _ => n == "name" && g == "mainGenre" && c == "carb"
  | _ => false

/-- The `MalformedCatalog`-style message for a bad header. -/
def headerErrMsg (header : List String) : String :=
  "menus.csv: unexpected header. Expected [" ++
    joinSep "," expectedHeader ++ "] but got [" ++
    joinSep "," header ++ "]"

/-- The `MalformedCatalog`-style message for an all-blank catalog. -/
def emptyCatalogMsg : String :=
  "menus.csv is empty or contains only blank lines."

/-- The `ValidationFailure`-style message joining every row error. -/
def validationFailedMsg (errors : List String) : String :=
  "menus.csv validation failed:\n" ++ joinSep "\n" errors

/-- The error messages among a list of row outcomes, in order (the
`errors` accumulator of the source loop). -/
def errorsOf (results : List (Except String Menu)) : List String :=
  results.filterMap fun r =>
    match r with | .error e => some e | .ok _ => none

/-- The records among a list of row outcomes, in order (the `menus`
accumulator of the source loop). -/
def menusOf (results : List (Except String Menu)) : List Menu :=
  results.filterMap fun r =>
    match r with | .ok m => some m | .error _ => none

/-- `p` occurs contiguously inside `s`. -/
def occursIn (p s : String) : Prop := ∃ a b, s = a ++ p ++ b

/-- `s` begins with `p`. -/
def beginsWith (p s : String) : Prop := ∃ b, s = p ++ b

/-- The outcomes of the data-row loop after the header at index
`headerIdx`, in source order: the loop visits every line at 0-based index
`headerIdx + 1` or later, and the human-readable row number of the line at
index `i` is `i + 1`. -/
def dataRowResults (lines : List String) (headerIdx : Nat) :
    List (Except String Menu) :=
  (List.enumFrom (headerIdx + 1) (lines.drop (headerIdx + 1))).filterMap
    fun p => processRow (p.1 + 1) p.2

/-- `parseMenusFromCSVText` after the line split: find the first non-blank
line as the header, check it, run the row loop, and either return all
accumulated records or fail with every accumulated row error. -/
def parseMenusFromLines (lines : List String) : Except String (List Menu) :=
  match lines.findIdx? (fun l => jsTrim l != "") with
  | none => .error emptyCatalogMsg
  | some headerIdx =>
    let header := trimmedCols (lines.getD headerIdx "")
    if headerMatches header then
      let results := dataRowResults lines headerIdx
      if (errorsOf results).isEmpty then .ok (menusOf results)
      else .error (validationFailedMsg (errorsOf results))
    else .error (headerErrMsg header)

/-- `parseMenusFromCSVText(raw)` from the static-export menus.ts. -/
def parseMenusFromCSVText (raw : String) : Except String (List Menu) :=
  parseMenusFromLines (splitLines raw)


/-- A sample record used by concrete witnesses. -/
def sampleCurry : Menu :=
  { id := "id1", name := "カレー", mainGenre := "洋食", carb := "米" }

/-- A sample dessert record used by concrete witnesses. -/
def samplePudding : Menu :=
  { id := "id2", name := "プリン", mainGenre := "デザート", carb := "どちらでもない" }

/-- A sample noodle record used by concrete witnesses. -/
def sampleRamen : Menu :=
  { id := "id3", name := "ラーメン", mainGenre := "中華", carb := "麺" }

/-- Pointwise-equal Bool predicates filter equally. -/
theorem filter_ext {α : Type} (l : List α) (f g : α → Bool)
    (h : ∀ a, f a = g a) : l.filter f = l.filter g :=
  List.filter_congr (fun a _ => h a)

/-- Random mode unfolds to the non-dessert filter. -/
theorem getCandidates_random (menus : List Menu) (mg c : Option String) :
    getCandidates menus ⟨"random", mg, c⟩ =
      .ok (menus.filter fun m => m.mainGenre != "デザート") := rfl

/-- Dessert mode unfolds to the dessert filter. -/
theorem getCandidates_dessert (menus : List Menu) (mg c : Option String) :
    getCandidates menus ⟨"dessert", mg, c⟩ =
      .ok (menus.filter fun m => m.mainGenre == "デザート") := rfl

/-- Carb mode with a non-empty target unfolds to its filter. -/
theorem getCandidates_carb (menus : List Menu) (mg : Option String)
    (t : String) (ht : t ≠ "") :
    getCandidates menus ⟨"carb", mg, some t⟩ =
      .ok (menus.filter fun m =>
        m.mainGenre != "デザート" && (m.carb == t || m.carb == "どちらでもない")) := by
  simp only [getCandidates, Option.getD_some]
  rw [if_neg (show ¬("carb" : String) = "random" by decide), if_pos trivial,
    if_neg ht]

/-- Genre mode with a non-empty genre unfolds to its filter. -/
theorem getCandidates_genre (menus : List Menu) (c : Option String)
    (g : String) (hg : g ≠ "") :
    getCandidates menus ⟨"genre", some g, c⟩ =
      .ok (menus.filter fun m => m.mainGenre == g) := by
  simp only [getCandidates, Option.getD_some]
  rw [if_neg (show ¬("genre" : String) = "random" by decide),
    if_neg (show ¬("genre" : String) = "carb" by decide), if_pos trivial,
    if_neg hg]

/-- C1: for every menu list and every filter of one of the four recognized
shapes, `getCandidates` returns exactly the order-preserving subsequence
(`List.filter`, which is a `Sublist`) of the records satisfying the
claimed predicate: Random keeps `mainGenre ≠ デザート`; Carb(target) keeps
`mainGenre ≠ デザート ∧ (carb = target ∨ carb = どちらでもない)`; Genre(g)
keeps `mainGenre = g`; Dessert keeps `mainGenre = デザート`. -/
theorem C1_getCandidates_shapes (menus : List Menu) (t g : String)
    (ht : t = "米" ∨ t = "麺") (hg : g ∈ MAIN_GENRES) :
    (getCandidates menus { mode := "random" } =
      .ok (menus.filter fun m => decide (m.mainGenre ≠ "デザート"))
    ∧ getCandidates menus { mode := "carb", carb := some t } =
      .ok (menus.filter fun m =>
        decide (m.mainGenre ≠ "デザート" ∧ (m.carb = t ∨ m.carb = "どちらでもない")))
    ∧ getCandidates menus { mode := "genre", mainGenre := some g } =
      .ok (menus.filter fun m => decide (m.mainGenre = g))
    ∧ getCandidates menus { mode := "dessert" } =
      .ok (menus.filter fun m => decide (m.mainGenre = "デザート")))
    ∧ ∀ p : Menu → Bool, (menus.filter p).Sublist menus := by
  have ht' : t ≠ "" := by rcases ht with h | h <;> simp [h]
  have hg' : g ≠ "" := by
    fin_cases hg <;> decide
  refine ⟨⟨?_, ?_, ?_, ?_⟩, fun p => List.filter_sublist _⟩
  · rw [getCandidates_random]
    exact congrArg Except.ok (filter_ext _ _ _ fun m => by
      by_cases h : m.mainGenre = "デザート" <;> simp [h])
  · rw [getCandidates_carb menus none t ht']
    exact congrArg Except.ok (filter_ext _ _ _ fun m => by
      by_cases h1 : m.mainGenre = "デザート" <;>
        by_cases h2 : m.carb = t <;>
          by_cases h3 : m.carb = "どちらでもない" <;> simp [h1, h2, h3])
  · rw [getCandidates_genre menus none g hg']
    exact congrArg Except.ok (filter_ext _ _ _ fun m => by
      by_cases h : m.mainGenre = g <;> simp [h])
  · rw [getCandidates_dessert]
    exact congrArg Except.ok (filter_ext _ _ _ fun m => by
      by_cases h : m.mainGenre = "デザート" <;> simp [h])

/-- Witness for C1 at a concrete catalog and the carb target 米. -/
theorem C1_getCandidates_shapes_witness :
    getCandidates [sampleCurry, samplePudding] { mode := "random" } =
      .ok [sampleCurry] := by
  have h := ((C1_getCandidates_shapes [sampleCurry, samplePudding] "米" "洋食"
    (Or.inl rfl) (by decide)).1).1
  exact h.trans (by rfl)

/-- C2 counterexample: a carb-mode filter carrying no carb target is one of
the unrecognized shapes, yet `getCandidates` returns the silent empty
result `.ok []` instead of failing fast with an error. -/
theorem C2_counterexample_silent_empty :
    getCandidates [sampleCurry] { mode := "carb" } = .ok []
    ∧ ∀ e, getCandidates [sampleCurry] { mode := "carb" } ≠ .error e :=
  ⟨rfl, fun _ h => Except.noConfusion h⟩

/-- C2 (amended): a filter whose mode tag is not one of the four recognized
modes makes `getCandidates` fail fast with an Unknown-mode error, but a
carb-mode filter with a missing (or empty) carb target and a genre-mode
filter with a missing (or empty) genre return a silent `.ok []` instead of
an error. -/
theorem C2_unrecognized_filters (menus : List Menu) (f gc gg : Filter)
    (hf : ¬(f.mode = "random" ∨ f.mode = "carb" ∨ f.mode = "genre" ∨
      f.mode = "dessert"))
    (hgc : gc.mode = "carb" ∧ gc.carb.getD "" = "")
    (hgg : gg.mode = "genre" ∧ gg.mainGenre.getD "" = "") :
    getCandidates menus f = .error ("Unknown mode: " ++ f.mode)
    ∧ getCandidates menus gc = .ok []
    ∧ getCandidates menus gg = .ok [] := by
  push_neg at hf
  obtain ⟨h1, h2, h3, h4⟩ := hf
  refine ⟨?_, ?_, ?_⟩
  · simp only [getCandidates]
    rw [if_neg h1, if_neg h2, if_neg h3, if_neg h4]
  · obtain ⟨hm, hc⟩ := hgc
    simp only [getCandidates]
    rw [hm]
    rw [if_neg (show ¬("carb" : String) = "random" by decide), if_pos rfl,
      if_pos hc]
  · obtain ⟨hm, hg⟩ := hgg
    simp only [getCandidates]
    rw [hm]
    rw [if_neg (show ¬("genre" : String) = "random" by decide),
      if_neg (show ¬("genre" : String) = "carb" by decide), if_pos rfl,
      if_pos hg]

/-- Witness for the amended C2 at concrete filters. -/
theorem C2_unrecognized_filters_witness :
    getCandidates [sampleCurry] { mode := "bogus" } =
      .error ("Unknown mode: " ++ "bogus") :=
  (C2_unrecognized_filters [sampleCurry] { mode := "bogus" }
    { mode := "carb" } { mode := "genre" } (by decide) (by decide)
    (by decide)).1

/-- C8: `decideNext` reports `candidatesCount` equal to the length of
`getCandidates menus filter` whether or not a pick was made; the pick is
`none` exactly when that length is zero and otherwise is an element of the
candidate set; and `pickOne` on the empty list is `none` (it never
throws), for every drawn index. -/
theorem C8_decideNext_count_and_pick (menus : List Menu) (f : Filter)
    (p : Option String) (idx : Nat) (cs : List Menu)
    (hok : getCandidates menus f = .ok cs)
    (hidx : idx < cs.length ∨ cs = []) :
    decideNext menus f p idx =
      .ok { result := pickOne cs idx, candidatesCount := cs.length }
    ∧ (pickOne cs idx = none ↔ cs.length = 0)
    ∧ (∀ m, pickOne cs idx = some m → m ∈ cs)
    ∧ ∀ j, pickOne [] j = none := by
  refine ⟨by simp [decideNext, hok], ?_, ?_, fun j => rfl⟩
  · unfold pickOne
    rcases hidx with h | h
    · have hne : cs.length ≠ 0 := by omega
      rw [if_neg hne]
      simp [List.getElem?_eq_getElem h]
      exact fun hc => hne (by simp [hc])
    · subst h
      simp
  · intro m hm
    unfold pickOne at hm
    by_cases h : cs.length = 0
    · rw [if_pos h] at hm
      exact absurd hm (by simp)
    · rw [if_neg h] at hm
      exact List.getElem?_mem hm

/-- Witness for C8 at a concrete catalog, filter and draw. -/
theorem C8_decideNext_count_and_pick_witness :
    decideNext [sampleCurry, samplePudding, sampleRamen]
      { mode := "random" } (some "prev") 1 =
      .ok { result := some sampleRamen, candidatesCount := 2 } := by
  have h := (C8_decideNext_count_and_pick
    [sampleCurry, samplePudding, sampleRamen] { mode := "random" }
    (some "prev") 1 [sampleCurry, sampleRamen] (by rfl)
    (Or.inl (by decide))).1
  exact h.trans (by rfl)

/-- C9: the previous-pick identity argument has no influence on
`decideNext`: for any two values (or absence) of `prevId` and the same
random draw, the two runs return identical results. -/
theorem C9_prevId_no_influence (menus : List Menu) (f : Filter)
    (p1 p2 : Option String) (idx : Nat) :
    decideNext menus f p1 idx = decideNext menus f p2 idx := rfl

/-! ### Parser lemmas -/

/-- C3: the micro-grammar cases do hold for bare splitting, quoted commas,
doubled quotes and trailing commas, but the final clause of the claim is
wrong on the code: the line `a,"b,c"` parses to three fields, not two.
Whenever a quoted field closes exactly at the end of the line, the loop
re-enters at end of input and pushes an extra empty trailing field. -/
theorem C3_parseCSVLine_quoted_line_end :
    parseCSVLine "a,\"b,c\"" = ["a", "b,c", ""]
    ∧ parseCSVLine "a,\"b,c\"" ≠ ["a", "b,c"]
    ∧ parseCSVLine "a,b,c" = ["a", "b", "c"]
    ∧ parseCSVLine "a,\"b\"\"c\",d" = ["a", "b\"c", "d"]
    ∧ parseCSVLine "a,b," = ["a", "b", ""]
    ∧ parseCSVLine "a,b" = ["a", "b"] :=
  ⟨rfl, by decide, rfl, rfl, rfl, rfl⟩

/-- The shape of a row outcome (skipped / record / error) and the record
payload do not depend on the row number; only the error text does. -/
theorem processRow_shape (n m : Nat) (line : String) :
    (processRow n line = none ↔ processRow m line = none)
    ∧ (∀ r, processRow n line = some (.ok r) ↔ processRow m line = some (.ok r))
    ∧ (∀ e, processRow n line = some (.error e) →
        processRow m line = some (.error (rowErrMsg m line))) := by
  unfold processRow
  by_cases h1 : jsTrim line = ""
  · simp [h1]
  · by_cases h2 : ((trimmedCols line)[0]?).getD "" = ""
    · simp [h1, h2]
    · by_cases h3 : (rowErrorsOf line).isEmpty
      · simp [h1, h2, h3]
      · simp [h1, h2, h3]

/-- Shifting the row numbers of a run of the data-row loop changes no
record and preserves whether any error was produced. -/
theorem results_shape (l : List String) : ∀ (n m : Nat),
    menusOf ((List.enumFrom n l).filterMap fun p => processRow (p.1 + 1) p.2) =
      menusOf ((List.enumFrom m l).filterMap fun p => processRow (p.1 + 1) p.2)
    ∧ ((errorsOf ((List.enumFrom n l).filterMap
          fun p => processRow (p.1 + 1) p.2)).isEmpty =
        (errorsOf ((List.enumFrom m l).filterMap
          fun p => processRow (p.1 + 1) p.2)).isEmpty) := by
  induction l with
  | nil => intro n m; simp [List.enumFrom_nil]
  | cons line rest ih =>
    intro n m
    obtain ⟨ihm, ihe⟩ := ih (n + 1) (m + 1)
    simp only [List.enumFrom_cons, List.filterMap_cons]
    rcases hr : processRow (n + 1) line with _ | r
    · have hr2 : processRow (m + 1) line = none :=
        ((processRow_shape (n + 1) (m + 1) line).1).mp hr
      simp [hr2, ihm, ihe]
    · rcases r with e | r
      · have hr2 := ((processRow_shape (n + 1) (m + 1) line).2.2) e hr
        simp only [hr2, errorsOf, menusOf, List.filterMap_cons] at ihm ihe ⊢
        simp [ihm, ihe]
      · have hr2 : processRow (m + 1) line = some (.ok r) :=
          (((processRow_shape (n + 1) (m + 1) line).2.1) r).mp hr
        simp only [hr2, errorsOf, menusOf, List.filterMap_cons] at ihm ihe ⊢
        simp [ihm, ihe]

/-- `findIdx?` with start index `s` is the plain search shifted by `s`. -/
theorem findIdx?_start_shift (p : String → Bool) :
    ∀ (l : List String) (s : Nat),
      List.findIdx? p l s = (List.findIdx? p l 0).map (fun j => j + s) := by
  intro l
  induction l with
  | nil => intro s; simp [List.findIdx?]
  | cons x xs ih =>
    intro s
    rw [List.findIdx?_cons, List.findIdx?_cons]
    by_cases hp : p x
    · simp [hp]
    · simp only [hp, Bool.false_eq_true, if_false, ih (s + 1), ih 1,
        Option.map_map]
      cases List.findIdx? p xs 0 with
      | none => simp
      | some j =>
          simp only [Option.map_some', Function.comp, Option.some.injEq]
          omega

/-- A hit of `findIdx?` in the left part survives an append. -/
theorem findIdx?_append_some (p : String → Bool) :
    ∀ (l₁ : List String) (l₂ : List String) (s i : Nat),
      List.findIdx? p l₁ s = some i →
      List.findIdx? p (l₁ ++ l₂) s = some i := by
  intro l₁
  induction l₁ with
  | nil => intro l₂ s i h; simp [List.findIdx?] at h
  | cons x xs ih =>
    intro l₂ s i h
    rw [List.findIdx?_cons] at h
    rw [List.cons_append, List.findIdx?_cons]
    by_cases hp : p x
    · simp only [hp, if_true] at h ⊢
      exact h
    · simp only [hp, Bool.false_eq_true, if_false] at h ⊢
      exact ih l₂ (s + 1) i h

/-- The index found by a plain `findIdx?` is in range. -/
theorem findIdx?_some_lt (p : String → Bool) :
    ∀ (l : List String) (i : Nat),
      List.findIdx? p l 0 = some i → i < l.length := by
  intro l
  induction l with
  | nil => intro i h; simp [List.findIdx?] at h
  | cons x xs ih =>
    intro i h
    rw [List.findIdx?_cons] at h
    by_cases hp : p x
    · simp [hp] at h
      simp only [List.length_cons]
      omega
    · simp only [hp, Bool.false_eq_true, if_false,
        findIdx?_start_shift p xs 1] at h
      rcases hj : List.findIdx? p xs 0 with _ | j
      · rw [hj] at h; simp at h
      · rw [hj] at h
        simp only [Option.map_some', Option.some.injEq] at h
        have := ih j hj
        simp only [List.length_cons]
        omega

/-- Unfolding `parseMenusFromLines` when no non-blank line exists. -/
theorem parseMenusFromLines_noHeader (ls : List String)
    (hfind : ls.findIdx? (fun l => jsTrim l != "") = none) :
    parseMenusFromLines ls = .error emptyCatalogMsg := by
  simp only [parseMenusFromLines, hfind]

/-- Unfolding `parseMenusFromLines` when the header check fails. -/
theorem parseMenusFromLines_badHeader (ls : List String) (i : Nat)
    (hfind : ls.findIdx? (fun l => jsTrim l != "") = some i)
    (hheader : headerMatches (trimmedCols (ls.getD i "")) = false) :
    parseMenusFromLines ls =
      .error (headerErrMsg (trimmedCols (ls.getD i ""))) := by
  simp only [parseMenusFromLines, hfind, hheader, Bool.false_eq_true,
    if_false]

/-- Unfolding `parseMenusFromLines` when the header check succeeds. -/
theorem parseMenusFromLines_eq (ls : List String) (i : Nat)
    (hfind : ls.findIdx? (fun l => jsTrim l != "") = some i)
    (hheader : headerMatches (trimmedCols (ls.getD i "")) = true) :
    parseMenusFromLines ls =
      if (errorsOf (dataRowResults ls i)).isEmpty
      then .ok (menusOf (dataRowResults ls i))
      else .error (validationFailedMsg (errorsOf (dataRowResults ls i))) := by
  simp only [parseMenusFromLines, hfind, hheader, if_true]

/-- A successful parse means: header found and valid, no row errors, and
the result is the accumulated record list. -/
theorem parse_ok_inversion (ls : List String) (ms : List Menu)
    (h : parseMenusFromLines ls = .ok ms) :
    ∃ i, ls.findIdx? (fun l => jsTrim l != "") = some i
      ∧ headerMatches (trimmedCols (ls.getD i "")) = true
      ∧ (errorsOf (dataRowResults ls i)).isEmpty = true
      ∧ menusOf (dataRowResults ls i) = ms := by
  rcases hf : ls.findIdx? (fun l => jsTrim l != "") with _ | i
  · rw [parseMenusFromLines_noHeader ls hf] at h
    exact absurd h (by simp)
  · by_cases hh : headerMatches (trimmedCols (ls.getD i "")) = true
    · rw [parseMenusFromLines_eq ls i hf hh] at h
      by_cases he : (errorsOf (dataRowResults ls i)).isEmpty = true
      · rw [if_pos he] at h
        exact ⟨i, rfl, hh, he, Except.ok.inj h⟩
      · rw [if_neg he] at h
        exact absurd h (by simp)
    · rw [parseMenusFromLines_badHeader ls i hf
        (Bool.not_eq_true _ ▸ hh)] at h
      exact absurd h (by simp)

/-- A member of a joined list occurs contiguously in the join. -/
theorem occursIn_joinSep (sep e : String) :
    ∀ (l : List String), e ∈ l → occursIn e (joinSep sep l) := by
  intro l
  induction l with
  | nil => intro h; cases h
  | cons x xs ih =>
    intro h
    rcases List.mem_cons.mp h with h | h
    · subst h
      cases xs with
      | nil => exact ⟨"", "", by simp [joinSep]⟩
      | cons y ys =>
          exact ⟨"", sep ++ joinSep sep (y :: ys),
            by simp [joinSep, String.append_assoc]⟩
    · cases xs with
      | nil => cases h
      | cons y ys =>
          obtain ⟨a, b, hab⟩ := ih h
          exact ⟨x ++ sep ++ a, b,
            by simp [joinSep, hab, String.append_assoc]⟩

/-- Occurrence is preserved by prepending. -/
theorem occursIn_append_left (t e s : String) (h : occursIn e s) :
    occursIn e (t ++ s) := by
  obtain ⟨a, b, hab⟩ := h
  exact ⟨t ++ a, b, by rw [hab]; simp [String.append_assoc]⟩

/-- C7: a data row whose trimmed name field is empty is skipped: it
produces no record and contributes no row-level error whatever its genre
and carb fields hold, and appending such a row to a catalog that parses
successfully leaves the parse result unchanged — it can never make the
load fail. -/
theorem C7_empty_name_skipped (n : Nat) (line : String)
    (hname : ((trimmedCols line)[0]?).getD "" = "") :
    processRow n line = none
    ∧ (∀ ls ms row, ((trimmedCols row)[0]?).getD "" = "" →
        parseMenusFromLines ls = .ok ms →
        parseMenusFromLines (ls ++ [row]) = .ok ms) := by
  constructor
  · unfold processRow
    by_cases h : jsTrim line = "" <;> simp [h, hname]
  · intro ls ms row hrow hok
    obtain ⟨i, hfind, hheader, hempty, hms⟩ := parse_ok_inversion ls ms hok
    have hlt : i < ls.length := findIdx?_some_lt _ ls i hfind
    have hfind' : (ls ++ [row]).findIdx? (fun l => jsTrim l != "") = some i :=
      findIdx?_append_some _ ls [row] 0 i hfind
    have hgetD : (ls ++ [row]).getD i "" = ls.getD i "" :=
      List.getD_append ls [row] "" i hlt
    have hrowskip : processRow (ls.length + 1) row = none := by
      unfold processRow
      by_cases h : jsTrim row = "" <;> simp [h, hrow]
    have hdrop : (ls ++ [row]).drop (i + 1) = ls.drop (i + 1) ++ [row] :=
      List.drop_append_of_le_length (by omega)
    have hresults : dataRowResults (ls ++ [row]) i = dataRowResults ls i := by
      unfold dataRowResults
      rw [hdrop, List.enumFrom_append, List.filterMap_append]
      have hlen : i + 1 + (ls.drop (i + 1)).length = ls.length := by
        simp only [List.length_drop]
        omega
      rw [hlen]
      simp [List.enumFrom_cons, List.filterMap_cons, hrowskip]
    rw [parseMenusFromLines_eq (ls ++ [row]) i hfind'
      (by rw [hgetD]; exact hheader), hresults, if_pos hempty, hms]

/-- Witness for C7: appending the skipped row `,和食,米` (empty name,
valid other fields) to a one-record catalog leaves the parse unchanged. -/
theorem C7_empty_name_skipped_witness :
    processRow 2 ",和食,米" = none
    ∧ parseMenusFromLines
        (["name,mainGenre,carb", "カレー,洋食,米"] ++ [",中華,パン"]) =
      .ok [{ id := stableId "カレー" "洋食" "米", name := "カレー",
             mainGenre := "洋食", carb := "米" }] := by
  have h := C7_empty_name_skipped 2 ",和食,米" (by rfl)
  refine ⟨h.1, ?_⟩
  exact h.2 ["name,mainGenre,carb", "カレー,洋食,米"]
    [{ id := stableId "カレー" "洋食" "米", name := "カレー",
       mainGenre := "洋食", carb := "米" }] ",中華,パン" (by rfl) (by rfl)

/-- C10: a non-blank data row with a non-empty name but fewer than three
fields validates its missing columns as the empty string, which lies
outside both closed enums, so the row yields a row-level error (not a
silent skip and not a record), and any catalog carrying such a data row
fails to load with the accumulated validation error. -/
theorem C10_short_row_fails (n : Nat) (line : String)
    (hnb : jsTrim line ≠ "")
    (hname : ((trimmedCols line)[0]?).getD "" ≠ "")
    (hshort : (trimmedCols line).length < 3) :
    processRow n line = some (.error (rowErrMsg n line))
    ∧ (∀ ls i k, ls.findIdx? (fun l => jsTrim l != "") = some i →
        headerMatches (trimmedCols (ls.getD i "")) = true →
        (k, line) ∈ List.enumFrom (i + 1) (ls.drop (i + 1)) →
        parseMenusFromLines ls =
          .error (validationFailedMsg (errorsOf (dataRowResults ls i)))) := by
  have hcarb : (trimmedCols line)[2]? = none :=
    List.getElem?_eq_none (by omega)
  have herr : rowErrorsOf line ≠ [] := by
    unfold rowErrorsOf
    rw [hcarb]
    have hc : isCarb ((none : Option String).getD "") = false := rfl
    simp [hc]
    intro _
    rfl
  have hall : ∀ m, processRow m line = some (.error (rowErrMsg m line)) := by
    intro m
    unfold processRow
    rw [if_neg hnb, if_neg hname,
      if_neg (by simp [List.isEmpty_iff, herr])]
  refine ⟨hall n, ?_⟩
  intro ls i k hfind hheader hmem
  have hin : (.error (rowErrMsg (k + 1) line) : Except String Menu) ∈
      dataRowResults ls i := by
    unfold dataRowResults
    exact List.mem_filterMap.mpr ⟨(k, line), hmem, hall (k + 1)⟩
  have hmemE : rowErrMsg (k + 1) line ∈ errorsOf (dataRowResults ls i) := by
    unfold errorsOf
    exact List.mem_filterMap.mpr ⟨_, hin, rfl⟩
  have hne : ¬((errorsOf (dataRowResults ls i)).isEmpty = true) := by
    intro hh
    rw [List.isEmpty_iff.mp hh] at hmemE
    cases hmemE
  rw [parseMenusFromLines_eq ls i hfind hheader, if_neg hne]

/-- Witness for C10 at the one-field data row `abc` inside a concrete
catalog. -/
theorem C10_short_row_fails_witness :
    processRow 2 "abc" = some (.error (rowErrMsg 2 "abc")) ∧
    parseMenusFromLines ["name,mainGenre,carb", "abc"] =
      .error (validationFailedMsg
        (errorsOf (dataRowResults ["name,mainGenre,carb", "abc"] 0))) := by
  have h := C10_short_row_fails 2 "abc" (by decide) (by decide) (by decide)
  exact ⟨h.1, h.2 ["name,mainGenre,carb", "abc"] 0 1 (by rfl) (by rfl)
    (by decide)⟩

/-- C5: with a valid header, if any data row is invalid the parse fails
with the single error joining every accumulated row error (and no record
list is returned), each accumulated row error occurs whole inside that
message, every offending data row contributes its error to the
accumulator, and each row error begins with its 1-based row number and
contains every per-row field violation; with zero invalid rows the
(possibly empty) accumulated record list is returned. -/
theorem C5_validation_accumulation (ls : List String) (i : Nat)
    (hfind : ls.findIdx? (fun l => jsTrim l != "") = some i)
    (hheader : headerMatches (trimmedCols (ls.getD i "")) = true) :
    (errorsOf (dataRowResults ls i) ≠ [] →
      parseMenusFromLines ls =
        .error (validationFailedMsg (errorsOf (dataRowResults ls i)))
      ∧ ∀ ms, parseMenusFromLines ls ≠ .ok ms)
    ∧ (errorsOf (dataRowResults ls i) = [] →
      parseMenusFromLines ls = .ok (menusOf (dataRowResults ls i)))
    ∧ (∀ e, e ∈ errorsOf (dataRowResults ls i) →
        occursIn e (validationFailedMsg (errorsOf (dataRowResults ls i))))
    ∧ (∀ k line e, (k, line) ∈ List.enumFrom (i + 1) (ls.drop (i + 1)) →
        processRow (k + 1) line = some (.error e) →
        e ∈ errorsOf (dataRowResults ls i))
    ∧ (∀ n line, jsTrim line ≠ "" → ((trimmedCols line)[0]?).getD "" ≠ "" →
        rowErrorsOf line ≠ [] →
        processRow n line = some (.error (rowErrMsg n line))
        ∧ beginsWith ("Row " ++ toString n ++ ": ") (rowErrMsg n line)
        ∧ (isMainGenre (((trimmedCols line)[1]?).getD "") = false →
            occursIn (genreErr ((trimmedCols line)[1]?)) (rowErrMsg n line))
        ∧ (isCarb (((trimmedCols line)[2]?).getD "") = false →
            occursIn (carbErr ((trimmedCols line)[2]?)) (rowErrMsg n line))) := by
  refine ⟨?_, ?_, ?_, ?_, ?_⟩
  · intro hne
    have hne' : ¬((errorsOf (dataRowResults ls i)).isEmpty = true) :=
      fun hh => hne (List.isEmpty_iff.mp hh)
    rw [parseMenusFromLines_eq ls i hfind hheader, if_neg hne']
    exact ⟨rfl, by simp⟩
  · intro hz
    rw [parseMenusFromLines_eq ls i hfind hheader,
      if_pos (List.isEmpty_iff.mpr hz)]
  · intro e he
    unfold validationFailedMsg
    exact occursIn_append_left _ _ _ (occursIn_joinSep _ _ _ he)
  · intro k line e hmem hrow
    unfold errorsOf
    refine List.mem_filterMap.mpr ⟨.error e, ?_, rfl⟩
    unfold dataRowResults
    exact List.mem_filterMap.mpr ⟨(k, line), hmem, hrow⟩
  · intro n line hnb hname hrerr
    have hre : ¬((rowErrorsOf line).isEmpty = true) :=
      fun hh => hrerr (List.isEmpty_iff.mp hh)
    refine ⟨?_, ⟨joinSep "; " (rowErrorsOf line), rfl⟩, ?_, ?_⟩
    · unfold processRow
      rw [if_neg hnb, if_neg hname, if_neg hre]
    · intro hg
      have hmem : genreErr ((trimmedCols line)[1]?) ∈ rowErrorsOf line := by
        unfold rowErrorsOf
        rw [hg]
        simp
      exact occursIn_append_left _ _ _ (occursIn_joinSep "; " _ _ hmem)
    · intro hc
      have hmem : carbErr ((trimmedCols line)[2]?) ∈ rowErrorsOf line := by
        unfold rowErrorsOf
        rw [hc]
        simp
      exact occursIn_append_left _ _ _ (occursIn_joinSep "; " _ _ hmem)

/-- Witness for C5 at a catalog with two invalid rows. -/
theorem C5_validation_accumulation_witness :
    parseMenusFromLines ["name,mainGenre,carb", "カレー,洋風,米", "麦茶,和食,茶"] =
      .error (validationFailedMsg (errorsOf (dataRowResults
        ["name,mainGenre,carb", "カレー,洋風,米", "麦茶,和食,茶"] 0))) := by
  have h := (C5_validation_accumulation
    ["name,mainGenre,carb", "カレー,洋風,米", "麦茶,和食,茶"] 0 (by rfl)
    (by rfl)).1 (by decide)
  exact h.1

/-- C6: the first non-blank line is the header: with no non-blank line the
parse fails with the empty-catalog error; a header whose trimmed fields do
not start with `name`, `mainGenre`, `carb` fails with a message carrying
both the expected and the actual header (in particular the two-field
header `name,mainGenre` is rejected); the header check accepts exactly the
field lists whose first three entries are the expected triple, extra
fields tolerated; and a leading blank line never changes a successful
parse. -/
theorem C6_header_rule :
    (∀ ls, (∀ l ∈ ls, jsTrim l = "") →
      parseMenusFromLines ls = .error emptyCatalogMsg)
    ∧ (∀ ls i, ls.findIdx? (fun l => jsTrim l != "") = some i →
        headerMatches (trimmedCols (ls.getD i "")) = false →
        parseMenusFromLines ls =
          .error (headerErrMsg (trimmedCols (ls.getD i "")))
        ∧ occursIn (joinSep "," expectedHeader)
            (headerErrMsg (trimmedCols (ls.getD i "")))
        ∧ occursIn (joinSep "," (trimmedCols (ls.getD i "")))
            (headerErrMsg (trimmedCols (ls.getD i ""))))
    ∧ (∀ hdr, headerMatches hdr = true ↔ hdr.take 3 = expectedHeader)
    ∧ (∀ ls ms, parseMenusFromLines ls = .ok ms →
        parseMenusFromLines ("" :: ls) = .ok ms)
    ∧ headerMatches ["name", "mainGenre"] = false := by
  refine ⟨?_, ?_, ?_, ?_, rfl⟩
  · intro ls hblank
    refine parseMenusFromLines_noHeader ls (List.findIdx?_eq_none_iff.mpr ?_)
    intro l hl
    simp [hblank l hl]
  · intro ls i hfind hheader
    refine ⟨parseMenusFromLines_badHeader ls i hfind hheader, ?_, ?_⟩
    · exact ⟨"menus.csv: unexpected header. Expected [",
        "] but got [" ++ joinSep "," (trimmedCols (ls.getD i "")) ++ "]",
        by simp [headerErrMsg, String.append_assoc]⟩
    · exact ⟨"menus.csv: unexpected header. Expected [" ++
        joinSep "," expectedHeader ++ "] but got [", "]",
        by simp [headerErrMsg, String.append_assoc]⟩
  · intro hdr
    rcases hdr with _ | ⟨a, _ | ⟨b, _ | ⟨c, rest⟩⟩⟩ <;>
      simp [headerMatches, expectedHeader, Bool.and_eq_true, beq_iff_eq,
        and_assoc]
  · intro ls ms hok
    obtain ⟨i, hfind, hheader, hempty, hms⟩ := parse_ok_inversion ls ms hok
    have hfind' : ("" :: ls).findIdx? (fun l => jsTrim l != "") =
        some (i + 1) := by
      rw [List.findIdx?_cons, if_neg (by decide),
        findIdx?_start_shift _ ls 1, hfind]
      rfl
    have hheader' :
        headerMatches (trimmedCols (("" :: ls).getD (i + 1) "")) = true := by
      rw [List.getD_cons_succ]
      exact hheader
    have hd : dataRowResults ("" :: ls) (i + 1) =
        (List.enumFrom (i + 2) (ls.drop (i + 1))).filterMap
          (fun p => processRow (p.1 + 1) p.2) := by
      unfold dataRowResults
      rw [List.drop_succ_cons]
    obtain ⟨hm, he⟩ := results_shape (ls.drop (i + 1)) (i + 2) (i + 1)
    have hdr2 : dataRowResults ls i =
        (List.enumFrom (i + 1) (ls.drop (i + 1))).filterMap
          (fun p => processRow (p.1 + 1) p.2) := rfl
    rw [parseMenusFromLines_eq ("" :: ls) (i + 1) hfind' hheader', hd,
      if_pos (by rw [he, ← hdr2]; exact hempty)]
    rw [hm, ← hdr2, hms]

/-- Witness for C6: a concrete bad header and a concrete successful parse
with a leading blank line. -/
theorem C6_header_rule_witness :
    parseMenusFromLines ["name,mainGenre"] =
      .error (headerErrMsg (trimmedCols "name,mainGenre"))
    ∧ parseMenusFromLines ["", "name,mainGenre,carb"] = .ok [] := by
  constructor
  · exact ((C6_header_rule.2.1) ["name,mainGenre"] 0 (by rfl) (by rfl)).1
  · exact (C6_header_rule.2.2.2.1) ["name,mainGenre,carb"] [] (by rfl)

/-! ### The two `stableId` implementations -/

/-- `imul32` always produces a 32-bit value. -/
theorem imul32_lt (a b : Nat) : imul32 a b < 2 ^ 32 :=
  Nat.mod_lt _ (by norm_num)

/-- The murmur character loop keeps both halves below `2 ^ 32`. -/
theorem murmur_foldl_lt (codes : List Nat) :
    ∀ st : Nat × Nat, st.1 < 2 ^ 32 → st.2 < 2 ^ 32 →
      (codes.foldl murmurRound st).1 < 2 ^ 32
      ∧ (codes.foldl murmurRound st).2 < 2 ^ 32 := by
  induction codes with
  | nil => exact fun st h1 h2 => ⟨h1, h2⟩
  | cons c cs ih =>
    intro st h1 h2
    exact ih (murmurRound st c) (imul32_lt _ _) (imul32_lt _ _)

/-- The combined murmur value is below `2 ^ 53`, hence below `36 ^ 11`. -/
theorem murmurMix_lt (codes : List Nat) : murmurMix codes < 36 ^ 11 := by
  have key : ∀ X Y : Nat, Y < 2 ^ 32 →
      4294967296 * (X &&& 2097151) + Y < 36 ^ 11 := by
    intro X Y hY
    have hA : X &&& 2097151 ≤ 2097151 := Nat.and_le_right
    have h36 : (36 : Nat) ^ 11 = 131621703842267136 := by norm_num
    have h32 : (2 : Nat) ^ 32 = 4294967296 := by norm_num
    omega
  simp only [murmurMix]
  exact key _ _ (Nat.xor_lt_two_pow (imul32_lt _ _) (imul32_lt _ _))

/-- Digit-count bound for the fuelled base-36 rendering. -/
theorem toBase36Aux_length :
    ∀ (k fuel n : Nat) (acc : List Char), n < 36 ^ k → 1 ≤ k → k ≤ fuel →
      (toBase36Aux fuel n acc).length ≤ k + acc.length := by
  intro k
  induction k with
  | zero => intro fuel n acc _ h1 _; omega
  | succ k ih =>
    intro fuel n acc hn _ hf
    cases fuel with
    | zero => omega
    | succ f =>
      unfold toBase36Aux
      by_cases h36 : n < 36
      · simp only [h36, if_true, List.length_cons]
        omega
      · rw [if_neg h36]
        rcases Nat.eq_zero_or_pos k with hk0 | hkpos
        · subst hk0
          rw [pow_one] at hn
          omega
        · have hdiv : n / 36 < 36 ^ k := by
            apply Nat.div_lt_of_lt_mul
            rw [mul_comm, ← pow_succ]
            exact hn
          have := ih f (n / 36) (jsDigitChar (n % 36) :: acc) hdiv hkpos
            (by omega)
          simp only [List.length_cons] at this
          omega

/-- A murmur id has at most 11 digits before padding. -/
theorem toBase36_length_le (n : Nat) (h : n < 36 ^ 11) :
    (toBase36 n).length ≤ 11 := by
  have := toBase36Aux_length 11 64 n [] h (by omega) (by omega)
  simpa using this

/-- The murmur-based `stableId` always renders exactly 11 characters. -/
theorem stableId_length (n g c : String) : (stableId n g c).length = 11 := by
  have hlen := toBase36_length_le _
    (murmurMix_lt (jsCharCodes (n ++ "\t" ++ g ++ "\t" ++ c)))
  show (padStart11 (toBase36 (murmurMix
    (jsCharCodes (n ++ "\t" ++ g ++ "\t" ++ c))))).length = 11
  unfold padStart11
  rw [List.length_append, List.length_replicate]
  omega

/-- Each 32-bit word renders as exactly 8 hex digits. -/
theorem toHex8_length (w : Nat) : (NodeCrypto.toHex8 w).length = 8 := rfl

/-- A SHA-256 hex digest always has 64 characters. -/
theorem sha256Hex_length (msg : List Nat) :
    (NodeCrypto.sha256Hex msg).length = 64 := by
  unfold NodeCrypto.sha256Hex
  simp [List.length_append, toHex8_length]

/-- The SHA-based `stableId` always renders exactly 12 characters. -/
theorem sha_stableId_length (n g c : String) :
    (NodeCrypto.stableId n g c).length = 12 := by
  show ((NodeCrypto.sha256Hex (NodeCrypto.stringUTF8
    (n ++ "\t" ++ g ++ "\t" ++ c))).take 12).length = 12
  rw [List.length_take, sha256Hex_length]
  rfl

/-- C4 counterexample: already at the triple `("a", "b", "c")` the two
`stableId` implementations disagree — the SHA-256 one returns the 12 hex
characters `8b4e84e4e5d1`, the murmur one the 11 base-36 characters
`25ond2des0c`. -/
theorem C4_counterexample_ids_differ :
    NodeCrypto.stableId "a" "b" "c" = "8b4e84e4e5d1"
    ∧ stableId "a" "b" "c" = "25ond2des0c"
    ∧ NodeCrypto.stableId "a" "b" "c" ≠ stableId "a" "b" "c" :=
  ⟨rfl, rfl, by decide⟩

/-- C4 (amended): each `stableId` implementation is a pure function of the
triple, but the two never produce the identical id string: the SHA-based
id always has 12 characters while the murmur-based id always has 11, so
the two catalog loaders can never agree on record ids for any row. -/
theorem C4_stableId_implementations_differ (n g c : String) :
    (NodeCrypto.stableId n g c).length = 12
    ∧ (stableId n g c).length = 11
    ∧ NodeCrypto.stableId n g c ≠ stableId n g c := by
  refine ⟨sha_stableId_length n g c, stableId_length n g c, ?_⟩
  intro h
  have hlen := congrArg String.length h
  rw [sha_stableId_length, stableId_length] at hlen
  exact absurd hlen (by norm_num)

end MenuApp
